import Mathlib

/-!
# Verification of the Banner Billings extraction core

A shallow embedding of the Banner Billings processing pipeline
(`banner_billings_processor.py`, `banner_combiner.py`, `banner_summarizer.py`)
together with theorems settling the specification claims about it.

Modelling conventions:
* A spreadsheet cell is `Cell`: null (None/NaN), a string, or a number.
  Numbers are modelled as rationals (`ℚ`); the decimal literals exercised by
  the claims are exactly representable, and special floating-point values
  (nan/inf) and float printing are outside the model.
* A sheet is a `Grid`: a list of rows of cells.  The pandas DataFrame read
  with `header=None` is rectangular, padding short rows with NaN; `cellAt`
  returns `Cell.null` beyond a row's literal cells, matching that padding.
* Python dicts with string keys are association lists (`List (String × α)`)
  in insertion order; `List.lookup` is dict access.
* `datetime.now()` is a run-dependent input and is passed in as an explicit
  timestamp string parameter.
-/

/-- A spreadsheet cell value: missing (None/NaN), text, or numeric. -/
inductive Cell where
  | null : Cell
  | str : String → Cell
  | num : ℚ → Cell
deriving DecidableEq, Repr

/-- A raw sheet: rows of cells (pandas DataFrame read with header=None). -/
abbrev Grid := List (List Cell)

/-- Number of rows, `len(df)`. -/
def nrows (g : Grid) : Nat := g.length

/-- Number of columns, `df.shape[1]`: pandas pads every row to the maximal
row length, so the column count is the maximum row length. -/
def ncols (g : Grid) : Nat := g.foldr (fun row acc => max row.length acc) 0

/-- `df.iloc[r, c]`: cell at row `r`, column `c`; missing positions are NaN. -/
def cellAt (g : Grid) (r c : Nat) : Cell :=
  (((g.get? r).getD []).get? c).getD Cell.null

/-- `str(val)` for a cell that is not None/NaN.  Numeric cells print as
their rational value; no claim compares a numeric cell's text form against
a specific string, so the exact float formatting is abstracted. -/
def cellToString : Cell → String
  | Cell.null => ""
  | Cell.str s => s
  | Cell.num q => toString q.num ++ (if q.den = 1 then "" else "/" ++ toString q.den)

/-- `pd.isna(val)`. -/
def cellIsNA : Cell → Bool
  | Cell.null => true
  | _ => false

/-- Substring containment on character lists (`needle in hay` in Python). -/
def listContainsSub (hay needle : List Char) : Bool :=
  match hay with
  | [] => needle.isEmpty
  | _ :: t => needle.isPrefixOf hay || listContainsSub t needle

/-- `needle in hay` for strings. -/
def strContains (hay needle : String) : Bool :=
  listContainsSub hay.data needle.data

/-- `s.lower()` (ASCII; the labels and filename tokens compared by the code
are ASCII). -/
def lowerStr (s : String) : String := String.mk (s.data.map Char.toLower)

/-- `s.upper()` (ASCII). -/
def upperStr (s : String) : String := String.mk (s.data.map Char.toUpper)

/-- `s.strip()`: remove leading and trailing whitespace. -/
def trimStr (s : String) : String :=
  String.mk
    (((s.data.dropWhile Char.isWhitespace).reverse.dropWhile
      Char.isWhitespace).reverse)

/- ## FilenameClassifier (`get_invoice_type_from_filename`,
`get_invoice_date_from_filename`) -/

def INVOICE_TYPE_HOSPITAL : String := "hospital"
def INVOICE_TYPE_PROFESSIONAL : String := "professional"
def INVOICE_TYPE_UNKNOWN : String := "unknown"

/-- Split a character list on `'/'`. -/
def splitSlash : List Char → List (List Char)
  | [] => [[]]
  | c :: t =>
    let r := splitSlash t
    if c = '/' then [] :: r
    else
      match r with
      | [] => [[c]]
      | h :: t2 => (c :: h) :: t2

/-- `Path(p).name`: the final path component (POSIX separators; empty and
`"."` segments are dropped by pathlib's normalization). -/
def pathName (p : String) : String :=
  String.mk
    ((((splitSlash p.data).filter
      (fun seg => seg != [] && seg != ['.'])).getLast?).getD [])

/-- Index of the last `'.'` in a name (`name.rfind('.')`), if any. -/
def lastDotIdx (name : String) : Option Nat :=
  (((name.data.enum).filter (fun p => p.2 == '.')).map Prod.fst).getLast?

/-- `Path(p).stem`: the name, with its final suffix removed when the last
dot is neither the first nor the last character of the name. -/
def pathStem (p : String) : String :=
  let name := pathName p
  match lastDotIdx name with
  | some i =>
    if 0 < i ∧ i < name.length - 1 then String.mk (name.data.take i) else name
  | none => name

/-- `BannerBillingsProcessor.get_invoice_type_from_filename`. -/
def get_invoice_type_from_filename (filename : String) : String :=
  if filename = "" then INVOICE_TYPE_UNKNOWN
  else
    let nameLower := lowerStr (pathStem filename)
    if strContains nameLower "hospital" then INVOICE_TYPE_HOSPITAL
    else if strContains nameLower "professional" then INVOICE_TYPE_PROFESSIONAL
    else INVOICE_TYPE_UNKNOWN

/-- The alternatives of `_INVOICE_DATE_PATTERN`'s month group, in the
pattern's alternation order (full months first, then "sept", then the
three-letter abbreviations). -/
def MONTH_ALTS : List String :=
  ["january", "february", "march", "april", "may", "june", "july", "august",
   "september", "october", "november", "december",
   "sept", "jan", "feb", "mar", "apr", "jun", "jul", "aug", "sep", "oct",
   "nov", "dec"]

/-- `_MONTH_TO_NUM`. -/
def MONTH_TO_NUM : List (String × Nat) :=
  [("january", 1), ("february", 2), ("march", 3), ("april", 4), ("may", 5),
   ("june", 6), ("july", 7), ("august", 8), ("september", 9), ("october", 10),
   ("november", 11), ("december", 12),
   ("jan", 1), ("feb", 2), ("mar", 3), ("apr", 4), ("jun", 6), ("jul", 7),
   ("aug", 8), ("sep", 9), ("sept", 9), ("oct", 10), ("nov", 11), ("dec", 12)]

/-- Numeric value of a digit string. -/
def digitsVal (ds : List Char) : Nat :=
  ds.foldl (fun a c => a * 10 + (c.toNat - 48)) 0

/-- Match `_INVOICE_DATE_PATTERN` at the start of `cs` (already lowercased):
try each month alternative in alternation order; on a literal match require
one or more whitespace characters followed by four digits (`\s+(\d{4})`;
the greedy `\s+` succeeds exactly when the maximal whitespace run is
followed by four digit characters).  Returns the matched alternative and
the four-digit year value. -/
def patMatchAt (cs : List Char) : Option (String × Nat) :=
  MONTH_ALTS.findSome? (fun alt =>
    if alt.data.isPrefixOf cs then
      let rest := cs.drop alt.length
      let ws := rest.takeWhile Char.isWhitespace
      let rest2 := rest.dropWhile Char.isWhitespace
      if ws ≠ [] ∧ 4 ≤ rest2.length ∧ (rest2.take 4).all Char.isDigit then
        some (alt, digitsVal (rest2.take 4))
      else none
    else none)

/-- `pattern.search`: the leftmost position at which the pattern matches. -/
def patSearch : List Char → Option (String × Nat)
  | [] => none
  | c :: rest =>
    match patMatchAt (c :: rest) with
    | some r => some r
    | none => patSearch rest

/-- Zero-pad a numeral string to width `w` (`f"{n:0wd}"`). -/
def padZeros (w : Nat) (n : Nat) : String :=
  let s := toString n
  String.mk (List.replicate (w - s.length) '0') ++ s

/-- `f"{year:04d}-{month_num:02d}-01"`. -/
def fmtInvoiceDate (year month : Nat) : String :=
  padZeros 4 year ++ "-" ++ padZeros 2 month ++ "-01"

/-- `BannerBillingsProcessor.get_invoice_date_from_filename`.  The
IGNORECASE search over the stem is modelled by searching the lowercased
stem (every alternative is lowercase ASCII and `\s`/`\d` are unaffected
by lowercasing); `match.group(1).lower()` is then the matched alternative
itself. -/
def get_invoice_date_from_filename (filename : String) : String :=
  if filename = "" then ""
  else
    match patSearch (lowerStr (pathStem filename)).data with
    | none => ""
    | some (alt, year) =>
      match MONTH_TO_NUM.lookup alt with
      | none => ""
      | some m => fmtInvoiceDate year m

/- ## Processor constants (`banner_billings_processor.py`) -/

def TARGET_COLUMNS : List String := ["Charge Amount", "Adjustment", "Balance Due"]

def TABLE_END_MARKERS : List String := ["TOTAL AMOUNT DUE", "BALANCE THIS STATEMENT"]

def METADATA_FIELDS_HOSPITAL : List String := ["PI", "STUDY NAME", "IRB NO", "KFS NO"]

def METADATA_FIELDS_PROFESSIONAL : List String :=
  ["PI", "STUDY NAME", "STUDY CODE", "IRB NO", "KFS NO"]

/- ## Currency parsing (`_parse_currency`) -/

/-- Parse a Python-`float()`-style decimal literal: optional sign, digits
with at most one decimal point (at least one digit overall), optional
exponent.  The special spellings `nan`/`inf` and underscore digit
separators accepted by `float()` are outside the model (no claim involves
them), and the value is exact (`ℚ`) rather than rounded to binary. -/
def parseDec (cs : List Char) : Option ℚ :=
  let sgnAndRest : Int × List Char :=
    match cs with
    | '+' :: r => (1, r)
    | '-' :: r => (-1, r)
    | r => (1, r)
  let sgn := sgnAndRest.1
  let cs1 := sgnAndRest.2
  let intDs := cs1.takeWhile Char.isDigit
  let cs2 := cs1.dropWhile Char.isDigit
  let fracAndRest : List Char × List Char :=
    match cs2 with
    | '.' :: r => (r.takeWhile Char.isDigit, r.dropWhile Char.isDigit)
    | r => ([], r)
  let fracDs := fracAndRest.1
  let cs3 := fracAndRest.2
  let expOpt : Option Int :=
    match cs3 with
    | [] => some 0
    | e :: r =>
      if e = 'e' ∨ e = 'E' then
        let esignAndRest : Int × List Char :=
          match r with
          | '+' :: rr => (1, rr)
          | '-' :: rr => (-1, rr)
          | rr => (1, rr)
        let eds := esignAndRest.2.takeWhile Char.isDigit
        let r3 := esignAndRest.2.dropWhile Char.isDigit
        if eds ≠ [] ∧ r3 = [] then some (esignAndRest.1 * (digitsVal eds : Int))
        else none
      else none
  if intDs = [] ∧ fracDs = [] then none
  else
    match expOpt with
    | none => none
    | some e =>
      let mantissa : Int :=
        sgn * (digitsVal intDs * 10 ^ fracDs.length + digitsVal fracDs : Nat)
      some
        (if 0 ≤ e then mkRat (mantissa * 10 ^ e.toNat) (10 ^ fracDs.length)
         else mkRat mantissa (10 ^ fracDs.length * 10 ^ (-e).toNat))

/-- `float(s)`: ignores surrounding whitespace. -/
def parseFloat (cs : List Char) : Option ℚ :=
  parseDec
    (((cs.dropWhile Char.isWhitespace).reverse.dropWhile Char.isWhitespace).reverse)

/-- `BannerBillingsProcessor._parse_currency`: None/NaN unparseable;
strings stripped, with `$` and `,` removed, then parsed; empty after
cleaning is unparseable.  A numeric cell stringifies and re-parses to
itself (`float(str(x)) == x`). -/
def parse_currency (c : Cell) : Option ℚ :=
  match c with
  | Cell.null => none
  | Cell.num q => some q
  | Cell.str s =>
    let cleaned := (trimStr s).data.filter (fun ch => ch != '$' && ch != ',')
    if cleaned = [] then none else parseFloat cleaned

/- ## TableLocator (`_find_header_and_column_map`, `_find_data_end_row`) -/

/-- `_normalize_header`: strip and lowercase. -/
def normalize_header (c : Cell) : String :=
  if cellIsNA c then "" else lowerStr (trimStr (cellToString c))

/-- A column map: target column name → claimed column index, in claim
order (a Python dict keyed by target name). -/
abbrev ColMap := List (String × Nat)

/-- One header-band cell offering its normalized text: the first target
name equal to it that is not yet claimed gets the current column
(`if normalized == target_low and target not in col_map`). -/
def tryClaimCell (normalized : String) (colIdx : Nat) (m : ColMap) : ColMap :=
  match TARGET_COLUMNS.find?
      (fun t => normalized == lowerStr t && (m.lookup t).isNone) with
  | some t => m ++ [(t, colIdx)]
  | none => m

/-- The inner loop over the `nRows` header-band rows of one column
(`for r in range(n_rows)`, skipping rows past the end of the grid). -/
def bandClaims (g : Grid) (startRow nRows colIdx : Nat) (m : ColMap) : ColMap :=
  (List.range nRows).foldl
    (fun m2 r =>
      if startRow + r < nrows g then
        tryClaimCell (normalize_header (cellAt g (startRow + r) colIdx)) colIdx m2
      else m2)
    m

/-- The column loop (`for col_idx in range(df.shape[1])`) restricted to the
first `n` columns. -/
def buildColMapAux (g : Grid) (startRow nRows : Nat) : Nat → ColMap
  | 0 => []
  | n + 1 => bandClaims g startRow nRows n (buildColMapAux g startRow nRows n)

/-- The column map built for one candidate start row. -/
def buildColMap (g : Grid) (startRow nRows : Nat) : ColMap :=
  buildColMapAux g startRow nRows (ncols g)

/-- Candidate header start rows:
`range(10, min(40, len(df) - n_rows + 1))`. -/
def headerCandidates (g : Grid) (nRows : Nat) : List Nat :=
  (List.range (min 40 (nrows g - nRows + 1))).filter (fun r => decide (10 ≤ r))

/-- Header-row counts to try: unknown tries 1 then 2; professional 2;
hospital (and anything else) 1. -/
def tryOrderOf (it : String) : List Nat :=
  if it = INVOICE_TYPE_UNKNOWN then [1, 2]
  else if it = INVOICE_TYPE_PROFESSIONAL then [2]
  else [1]

/-- `_find_header_and_column_map`: first candidate start row whose column
map claims all three targets, for the first header-row count that
succeeds.  `none` models the `(None, None, {})` sentinel. -/
def find_header_and_column_map (it : String) (g : Grid) :
    Option (Nat × Nat × ColMap) :=
  (tryOrderOf it).findSome? (fun nRows =>
    ((headerCandidates g nRows).find?
      (fun c => (buildColMap g c nRows).length == 3)).map
      (fun c => (c, c + nRows, buildColMap g c nRows)))

/-- Row `r` of the grid (a pandas row; trailing NaN padding to `ncols` is
immaterial to the emptiness and marker checks below). -/
def rowCells (g : Grid) (r : Nat) : List Cell := (g.get? r).getD []

/-- A row contains a table-end marker: some string cell whose stripped,
uppercased text contains one of the markers as a substring. -/
def rowHasEndMarker (row : List Cell) : Bool :=
  row.any (fun v =>
    match v with
    | Cell.str s => TABLE_END_MARKERS.any (fun m => strContains (upperStr (trimStr s)) m)
    | _ => false)

/-- A completely empty row: every cell null or blank after stripping. -/
def rowIsEmptyRow (row : List Cell) : Bool :=
  row.all (fun v => cellIsNA v || trimStr (cellToString v) == "")

/-- `_find_data_end_row`: first row at or after `dataStart` that carries an
end marker or is completely empty; the grid length if none. -/
def find_data_end_row (g : Grid) (dataStart : Nat) : Nat :=
  match (List.range' dataStart (nrows g - dataStart)).find?
      (fun r => rowHasEndMarker (rowCells g r) || rowIsEmptyRow (rowCells g r)) with
  | some r => r
  | none => nrows g

/- ## RowExtractor (`extract_table_data`) -/

/-- The raw cell of a data row under a mapped target column
(`row.iloc[col_idx] if col_idx < len(row) else None`; a pandas row has
`ncols` entries). -/
def targetCellAt (g : Grid) (colMap : ColMap) (rowIdx : Nat) (colName : String) : Cell :=
  let ci := (colMap.lookup colName).getD 0
  if ci < ncols g then cellAt g rowIdx ci else Cell.null

/-- The three parsed target values of one data row. -/
def parseRowValues (g : Grid) (colMap : ColMap) (rowIdx : Nat) :
    List (String × Option ℚ) :=
  TARGET_COLUMNS.map (fun cn => (cn, parse_currency (targetCellAt g colMap rowIdx cn)))

/-- The emitted line item for one data row: kept exactly when all three
target cells parsed (`if all_present`), dropped otherwise. -/
def rowItem (g : Grid) (colMap : ColMap) (rowIdx : Nat) : Option (List (String × ℚ)) :=
  let vals := parseRowValues g colMap rowIdx
  if vals.all (fun p => p.2.isSome) then
    some (vals.map (fun p => (p.1, p.2.getD 0)))
  else none

/-- `extract_table_data`: locate the header (the column map returned by a
successful search always has all three targets, so the `len(col_map) != 3`
guard only fires on the not-found sentinel), then keep the fully parsed
rows in `[data_start, data_end)`. -/
def extract_table_data (it : String) (g : Grid) : List (List (String × ℚ)) :=
  match find_header_and_column_map it g with
  | none => []
  | some (_, dataStart, colMap) =>
    (List.range' dataStart (find_data_end_row g dataStart - dataStart)).filterMap
      (rowItem g colMap)

/- ## MetadataScanner (`_normalize_metadata_label`,
`_extract_metadata_label_value_pairs`, `extract_metadata_from_sheet`) -/

/-- `_normalize_metadata_label`: strip, lowercase, then strip trailing
non-alphanumeric characters one at a time. -/
def normalize_metadata_label (c : Cell) : String :=
  if cellIsNA c then ""
  else
    String.mk
      (((lowerStr (trimStr (cellToString c))).data.reverse.dropWhile
        (fun ch => !ch.isAlphanum)).reverse)

/-- Expected metadata fields per invoice type; unknown unions both sets. -/
def expectedMetadataFields (it : String) : List String :=
  if it = INVOICE_TYPE_HOSPITAL then METADATA_FIELDS_HOSPITAL
  else if it = INVOICE_TYPE_PROFESSIONAL then METADATA_FIELDS_PROFESSIONAL
  else METADATA_FIELDS_HOSPITAL ++ METADATA_FIELDS_PROFESSIONAL

/-- `expected_normalized[label_norm]`: the canonical field whose normalized
name equals the label.  The Python dict comprehension lets a later field
overwrite an earlier one with the same normalized name, hence the reversed
lookup (duplicates in the union carry identical canonical names). -/
def canonicalFieldFor (it : String) (labelNorm : String) : Option String :=
  (((expectedMetadataFields it).map
    (fun f => (normalize_metadata_label (Cell.str f), f))).reverse).lookup labelNorm

/-- Python dict assignment `d[k] = v`: overwrite in place, else append. -/
def dictInsert (d : List (String × String)) (k v : String) :
    List (String × String) :=
  if (d.lookup k).isSome then d.map (fun p => if p.1 == k then (k, v) else p)
  else d ++ [(k, v)]

/-- The value stored for a matched metadata row: blank if the value cell is
NaN or strips to empty, its stripped text otherwise. -/
def recordedMetaValue (c : Cell) : String :=
  if cellIsNA c || trimStr (cellToString c) == "" then "" else trimStr (cellToString c)

/-- `_extract_metadata_label_value_pairs`.  The in-loop bounds check
`label_col >= df.shape[1] or value_col >= df.shape[1]` is loop-invariant,
so the `break` is hoisted to a guard. -/
def extract_metadata_label_value_pairs (it : String) (g : Grid)
    (headerStartRow labelCol valueCol : Nat) : List (String × String) :=
  if decide (ncols g ≤ labelCol) || decide (ncols g ≤ valueCol) then []
  else
    (List.range headerStartRow).foldl
      (fun result rowIdx =>
        match canonicalFieldFor it (normalize_metadata_label (cellAt g rowIdx labelCol)) with
        | none => result
        | some key => dictInsert result key (recordedMetaValue (cellAt g rowIdx valueCol)))
      []

/-- Per-sheet processing context: the processor's `current_sheet_name`,
`current_workbook_name`, `current_invoice_type`, `current_invoice_date`. -/
structure Ctx where
  sheet_name : String
  workbook_name : String
  invoice_type : String
  invoice_date : String
deriving DecidableEq, Repr

/-- The fields emitted blank when no header row is found: professional's
set for professional, hospital's otherwise. -/
def blankMetadataFields (it : String) : List String :=
  if it = INVOICE_TYPE_PROFESSIONAL then METADATA_FIELDS_PROFESSIONAL
  else METADATA_FIELDS_HOSPITAL

/-- Label/value column convention and emitted fields per invoice type:
hospital B/C with the hospital fields, professional A/B with the
professional fields, unknown defaults to the hospital convention. -/
def metaConvention (it : String) : Nat × Nat × List String :=
  if it = INVOICE_TYPE_HOSPITAL then (1, 2, METADATA_FIELDS_HOSPITAL)
  else if it = INVOICE_TYPE_PROFESSIONAL then (0, 1, METADATA_FIELDS_PROFESSIONAL)
  else (1, 2, METADATA_FIELDS_HOSPITAL)

/-- The five context entries heading every metadata record. -/
def metadataBase (ctx : Ctx) (ts : String) : List (String × String) :=
  [("sheet_name", ctx.sheet_name), ("workbook_name", ctx.workbook_name),
   ("invoice_type", ctx.invoice_type), ("invoice_date", ctx.invoice_date),
   ("extraction_timestamp", ts)]

/-- The field entries of a metadata record: all blank when no header was
found (`header_start is None or header_start <= 0`; a found start row is
≥ 10, so `≤ 0` is `= 0` on ℕ), otherwise filled from the label/value scan
with unmatched fields blank. -/
def metadataTail (it : String) (g : Grid) : List (String × String) :=
  match find_header_and_column_map it g with
  | none => (blankMetadataFields it).map (fun f => (f, ""))
  | some (headerStart, _, _) =>
    if headerStart = 0 then (blankMetadataFields it).map (fun f => (f, ""))
    else
      let conv := metaConvention it
      let pairs := extract_metadata_label_value_pairs it g headerStart conv.1 conv.2.1
      conv.2.2.map (fun f => (f, (pairs.lookup f).getD ""))

/-- `extract_metadata_from_sheet`. -/
def extract_metadata_from_sheet (ctx : Ctx) (ts : String) (g : Grid) :
    List (String × String) :=
  metadataBase ctx ts ++ metadataTail ctx.invoice_type g

/- ## SheetExtractor (`extract_sheet_data`) -/

/-- A combined-table row: a Python dict in insertion order. -/
abbrev CRow := List (String × Cell)

/-- `all_meta_keys = list(dict.fromkeys(HOSPITAL + PROFESSIONAL))`:
first-occurrence deduplication of the union. -/
def allRowMetaKeys : List String :=
  (METADATA_FIELDS_HOSPITAL ++ METADATA_FIELDS_PROFESSIONAL).foldl
    (fun acc k => if k ∈ acc then acc else acc ++ [k]) []

/-- `v is not None and str(v).strip() != ''` for a row value. -/
def cellHasContent (c : Cell) : Bool :=
  match c with
  | Cell.null => false
  | c => trimStr (cellToString c) != ""

/-- The unified metadata entries attached to every combined row
(`row_dict[key] = metadata.get(key, "")`). -/
def metaAttach (metadata : List (String × String)) : CRow :=
  allRowMetaKeys.map (fun k => (k, Cell.str ((metadata.lookup k).getD "")))

/-- Turn one extracted table row into a combined-table row: keep it when
some value has content (always true here: the three parsed values are
numeric), then attach the unified metadata keys (blank when absent from
this sheet's record), the invoice date and the three tracking fields. -/
def attachRowExtras (ctx : Ctx) (metadata : List (String × String))
    (vals : List (String × ℚ)) : Option CRow :=
  let rowDict : CRow := vals.map (fun p => (p.1, Cell.num p.2))
  if rowDict.any (fun p => cellHasContent p.2) then
    some (rowDict
      ++ metaAttach metadata
      ++ [("invoice_date", Cell.str ctx.invoice_date),
          ("_sheet_name", Cell.str ctx.sheet_name),
          ("_workbook_name", Cell.str ctx.workbook_name),
          ("_invoice_type", Cell.str ctx.invoice_type)])
  else none

/-- The result of `extract_sheet_data`. -/
structure SheetData where
  metadata : List (String × String)
  table_data : List CRow
  raw_row_count : Nat
deriving Repr

/-- `extract_sheet_data`: metadata plus the decorated table rows plus the
raw row count. -/
def extract_sheet_data (ctx : Ctx) (ts : String) (g : Grid) : SheetData :=
  let metadata := extract_metadata_from_sheet ctx ts g
  let tableRows :=
    (extract_table_data ctx.invoice_type g).filterMap (attachRowExtras ctx metadata)
  ⟨metadata, tableRows, nrows g⟩

/- ## Combiner (`banner_combiner.py`) -/

/-- A per-sheet metadata log entry: the sheet's metadata record plus the
`raw_row_count` and `extracted_row_count` keys added by `add_sheet_data`. -/
structure MetaRecord where
  fields : List (String × String)
  raw_row_count : Nat
  extracted_row_count : Nat
deriving Repr

/-- `BannerBillingsCombiner` accumulator state. -/
structure Combiner where
  combined_rows : List CRow
  metadata_records : List MetaRecord
  source_files : List String
deriving Repr

/-- A freshly constructed (or `reset`) combiner. -/
def emptyCombiner : Combiner := ⟨[], [], []⟩

/-- `add_sheet_data`: log the metadata with its counts, record the workbook
name first-seen (skipping falsy names), and append the table rows. -/
def add_sheet_data (c : Combiner) (sd : SheetData) : Combiner :=
  let workbookName := (sd.metadata.lookup "workbook_name").getD ""
  { combined_rows := c.combined_rows ++ sd.table_data
    metadata_records :=
      c.metadata_records ++ [⟨sd.metadata, sd.raw_row_count, sd.table_data.length⟩]
    source_files :=
      if workbookName ≠ "" ∧ workbookName ∉ c.source_files then
        c.source_files ++ [workbookName]
      else c.source_files }

/-- Keys of a row, as a set (`set(row.keys())`; a dict's keys are distinct,
so the combined key list is deduplicated). -/
def rowKeySet (r : CRow) : List String := (r.map Prod.fst).dedup

/-- `all_columns`: the union of all row key sets. -/
def allColsOf (rows : List CRow) : List String :=
  ((rows.map (fun r => r.map Prod.fst)).flatten).dedup

/-- The column-set inconsistency message of `validate_combined_data`. -/
def missingColsMsg (nRows nCols : Nat) : String :=
  toString nRows ++ " rows have fewer columns than others (total columns found: "
    ++ toString nCols ++ ")"

/-- The column-consistency check of `validate_combined_data`: the message
emitted when some rows have fewer keys than the union. -/
def missingColsIssue (rows : List CRow) : List String :=
  let allColumns := allColsOf rows
  let rowsWithMissing :=
    (rows.filter (fun r => decide ((rowKeySet r).length < allColumns.length))).length
  if 0 < rowsWithMissing then [missingColsMsg rowsWithMissing allColumns.length]
  else []

/-- A completely empty combined row. -/
def crowIsEmpty (r : CRow) : Bool :=
  r.all (fun p => !cellHasContent p.2)

/-- The empty-row check of `validate_combined_data`. -/
def emptyRowsIssue (rows : List CRow) : List String :=
  let emptyRows := (rows.filter crowIsEmpty).length
  if 0 < emptyRows then [toString emptyRows ++ " empty rows found in combined data"]
  else []

/-- `validate_combined_data`. -/
def validate_combined_data (c : Combiner) : List String :=
  if c.combined_rows.isEmpty then ["No data extracted from any sheets"]
  else missingColsIssue c.combined_rows ++ emptyRowsIssue c.combined_rows

/- ## Summarizer (`banner_summarizer.py`) -/

def SUM_COLUMNS : List String := ["Charge Amount", "Adjustment", "Balance Due"]

/-- Study-level grouping columns (internal names). -/
def studyGroupCols : List String :=
  ["STUDY NAME", "STUDY CODE", "KFS NO", "IRB NO", "invoice_date", "_invoice_type"]

/-- Account-level grouping columns (internal names). -/
def accountGroupCols : List String := ["KFS NO", "_invoice_type", "invoice_date"]

/-- `df_work[col].fillna("").astype(str).str.strip()` on one cell: a
missing or null key cell becomes the empty string, text is stripped, and a
number stringifies then strips. -/
def coerceKeyCell : Option Cell → String
  | none => ""
  | some Cell.null => ""
  | some (Cell.str s) => trimStr s
  | some (Cell.num q) => trimStr (cellToString (Cell.num q))

/-- The coerced grouping key of one row. -/
def groupKeyOf (groupCols : List String) (r : CRow) : List String :=
  groupCols.map (fun c => coerceKeyCell (r.lookup c))

/-- `.sum()` of one numeric column over a group (pandas skips missing
values; the extractor always supplies numeric cells here). -/
def sumColOver (grp : List CRow) (col : String) : ℚ :=
  (grp.map (fun r =>
    match r.lookup col with
    | some (Cell.num q) => q
    | _ => 0)).sum

/-- `groupby(group_cols, dropna=False)[...].sum()`: one output row per
distinct coerced key, carrying the three column sums over its group.
(pandas orders the output by sorted key; no claim depends on the order of
summary rows, so the distinct keys are kept in list order here.) -/
def aggregateGroups (rows : List CRow) (groupCols : List String) :
    List (List String × ℚ × ℚ × ℚ) :=
  ((rows.map (groupKeyOf groupCols)).dedup).map (fun k =>
    let grp := rows.filter (fun r => groupKeyOf groupCols r == k)
    (k, sumColOver grp "Charge Amount", sumColOver grp "Adjustment",
      sumColOver grp "Balance Due"))

/-- `BannerBillingsSummarizer._aggregate`: empty input or missing required
columns yield an empty result, otherwise group and sum. -/
def aggregate (rows : List CRow) (groupCols : List String) :
    List (List String × ℚ × ℚ × ℚ) :=
  if rows.isEmpty then []
  else if !((groupCols ++ SUM_COLUMNS).filter
      (fun c => !(allColsOf rows).contains c)).isEmpty then []
  else aggregateGroups rows groupCols

/-- `get_study_level_summary`. -/
def get_study_level_summary (rows : List CRow) : List (List String × ℚ × ℚ × ℚ) :=
  aggregate rows studyGroupCols

/-- `get_account_level_summary`. -/
def get_account_level_summary (rows : List CRow) : List (List String × ℚ × ℚ × ℚ) :=
  aggregate rows accountGroupCols

/- ## Full pipeline (`process_workbook` + `add_workbook_data`) -/

/-- The per-sheet context produced by `set_workbook_name` (classifying the
workbook filename) and `set_sheet_name`. -/
def mkCtx (workbookName sheetName : String) : Ctx :=
  ⟨sheetName, workbookName, get_invoice_type_from_filename workbookName,
    get_invoice_date_from_filename workbookName⟩

/-- One run's input: workbooks in processing order, each a name with its
sheets (name, grid) in tab order. -/
abbrev RunInput := List (String × List (String × Grid))

/-- All (context, grid) extraction jobs of a run, in execution order. -/
def runJobs (input : RunInput) : List (Ctx × Grid) :=
  (input.map (fun wb => wb.2.map (fun s => (mkCtx wb.1 s.1, s.2)))).flatten

/-- The full pipeline: extract every sheet (each extraction stamped with
the run's timestamp), then fold the results into a fresh combiner with
sequential `add` calls in order. -/
def runPipeline (input : RunInput) (ts : String) : Combiner :=
  ((runJobs input).map (fun j => extract_sheet_data j.1 ts j.2)).foldl
    add_sheet_data emptyCombiner

/- ## Statement helpers and concrete instances -/

/-- The label rows above the header band whose normalized label resolves to
the expected field `f` (the premise of the last-match-wins contract). -/
def matchRowsFor (it : String) (g : Grid) (hs labelCol : Nat) (f : String) : List Nat :=
  (List.range hs).filter
    (fun r => canonicalFieldFor it (normalize_metadata_label (cellAt g r labelCol)) == some f)

/-- The fixed key list of every combined-table row, in insertion order:
the three targets, the unified metadata keys, the invoice date and the
three tracking fields. -/
def COMBINED_ROW_KEYS : List String :=
  ["Charge Amount", "Adjustment", "Balance Due", "PI", "STUDY NAME", "IRB NO",
   "KFS NO", "STUDY CODE", "invoice_date", "_sheet_name", "_workbook_name",
   "_invoice_type"]

/-- A metadata record with its `extraction_timestamp` entry removed (the
comparison modulo timestamp of the idempotence property). -/
def scrubTs (m : List (String × String)) : List (String × String) :=
  m.filter (fun p => p.1 != "extraction_timestamp")

/-- A metadata-log entry modulo the extraction timestamp. -/
def scrubRec (m : MetaRecord) : List (String × String) × Nat × Nat :=
  (scrubTs m.fields, m.raw_row_count, m.extracted_row_count)

/-- Professional sheet whose two-row header band holds "Charge Amount" and
"Adjustment" in the same column (rows 10 and 11 of column 0) and
"Balance Due" in column 1. -/
def gridC1 : Grid :=
  [[], [], [], [], [], [], [], [], [], [],
   [Cell.str "Charge Amount", Cell.str "Balance Due"],
   [Cell.str "Adjustment"]]

/-- Hospital sheet with a plain one-row header at row 10. -/
def gridC1W : Grid :=
  [[], [], [], [], [], [], [], [], [], [],
   [Cell.str "Charge Amount", Cell.str "Adjustment", Cell.str "Balance Due"]]

/-- Sheet of an unknown-category workbook with a "STUDY CODE" label above
the header band (hospital label/value convention: label column B). -/
def gridC2 : Grid :=
  [[Cell.null, Cell.str "STUDY CODE:", Cell.str "ABC"],
   [], [], [], [], [], [], [], [], [],
   [Cell.str "Charge Amount", Cell.str "Adjustment", Cell.str "Balance Due"],
   [Cell.num 100, Cell.num 10, Cell.num 90]]

/-- Context of a sheet in a workbook classified as unknown. -/
def ctxC2 : Ctx := mkCtx "Book1.xlsx" "Sheet1"

/-- Another unknown-category context. -/
def ctxC2W : Ctx := mkCtx "Statements June 2025.xlsx" "Tab A"

/-- Hospital sheet with one fully-parseable data row and one row whose
Adjustment cell is blank. -/
def gridC3 : Grid :=
  [[], [], [], [], [], [], [], [], [], [],
   [Cell.str "Charge Amount", Cell.str "Adjustment", Cell.str "Balance Due"],
   [Cell.str "$100.00", Cell.str "$0.00", Cell.str "$100.00"],
   [Cell.str "$1,200.00", Cell.str "", Cell.str "$1,200.00"]]

/-- Two combined-table line items sharing KFS No "123", hospital category
and invoice month 2025-05-01, with charge amounts 100 and 200. -/
def c4row1 : CRow :=
  [("Charge Amount", Cell.num 100), ("Adjustment", Cell.num 10),
   ("Balance Due", Cell.num 90), ("PI", Cell.str "X"),
   ("STUDY NAME", Cell.str "S"), ("IRB NO", Cell.str "I"),
   ("KFS NO", Cell.str "123"), ("STUDY CODE", Cell.str ""),
   ("invoice_date", Cell.str "2025-05-01"), ("_sheet_name", Cell.str "Sh1"),
   ("_workbook_name", Cell.str "May 2025 Hospital.xlsx"),
   ("_invoice_type", Cell.str "hospital")]

def c4row2 : CRow :=
  [("Charge Amount", Cell.num 200), ("Adjustment", Cell.num 20),
   ("Balance Due", Cell.num 180), ("PI", Cell.str "X"),
   ("STUDY NAME", Cell.str "S"), ("IRB NO", Cell.str "I"),
   ("KFS NO", Cell.str "123"), ("STUDY CODE", Cell.str ""),
   ("invoice_date", Cell.str "2025-05-01"), ("_sheet_name", Cell.str "Sh2"),
   ("_workbook_name", Cell.str "May 2025 Hospital.xlsx"),
   ("_invoice_type", Cell.str "hospital")]

/-- Hospital sheet with two metadata rows whose labels both normalize to
"KFS NO" ("KFS NO:" with value 111, then "KFS NO." with value 222). -/
def gridC5 : Grid :=
  [[Cell.null, Cell.str "KFS NO:", Cell.str "111"],
   [Cell.null, Cell.str "KFS NO.", Cell.str "222"],
   [], [], [], [], [], [], [], [],
   [Cell.str "Charge Amount", Cell.str "Adjustment", Cell.str "Balance Due"]]

/-- Hospital context for the duplicate-label sheet. -/
def ctxC5 : Ctx := mkCtx "May 2025 Hospital.xlsx" "S1"

/- ## General lemmas about the embedded dictionary operations -/

theorem lookup_cons_ite {α β : Type} [BEq α] {k a : α} {b : β} {es : List (α × β)} :
    ((a, b) :: es).lookup k = cond (k == a) (some b) (es.lookup k) := by
  rw [List.lookup_cons]
  rcases h : k == a with _ | _ <;> simp

theorem findSome?_exists {α β : Type} {l : List α} {f : α → Option β} {b : β}
    (h : l.findSome? f = some b) : ∃ a ∈ l, f a = some b := by
  induction l with
  | nil => simp [List.findSome?] at h
  | cons x t ih =>
    rw [List.findSome?_cons] at h
    split at h
    · next y heq => exact ⟨x, List.mem_cons_self .., heq.trans h⟩
    · next heq =>
      obtain ⟨a, ha, hfa⟩ := ih h
      exact ⟨a, List.mem_cons_of_mem _ ha, hfa⟩

theorem lookup_none_iff {α β : Type} [BEq α] [LawfulBEq α] {l : List (α × β)} {k : α} :
    l.lookup k = none ↔ k ∉ l.map Prod.fst := by
  induction l with
  | nil => simp [List.lookup]
  | cons p t ih =>
    rcases p with ⟨a, b⟩
    rw [lookup_cons_ite]
    by_cases hk : k = a
    · subst hk
      simp
    · rw [beq_false_of_ne hk]
      simpa [hk] using ih

theorem lookup_append_of_none {α β : Type} [BEq α] {l₁ : List (α × β)}
    (l₂ : List (α × β)) {k : α} (h : l₁.lookup k = none) :
    (l₁ ++ l₂).lookup k = l₂.lookup k := by
  induction l₁ with
  | nil => rfl
  | cons p t ih =>
    rcases p with ⟨a, b⟩
    rw [lookup_cons_ite] at h
    rw [List.cons_append, lookup_cons_ite]
    rcases hk : k == a with _ | _
    · rw [hk] at h
      exact ih h
    · rw [hk] at h
      simp at h

theorem lookup_map_self {α β : Type} [BEq α] [LawfulBEq α] {fields : List α}
    {v : α → β} {f : α} (h : f ∈ fields) :
    (fields.map (fun x => (x, v x))).lookup f = some (v f) := by
  induction fields with
  | nil => exact absurd h (List.not_mem_nil f)
  | cons x t ih =>
    rw [List.map_cons, lookup_cons_ite]
    by_cases hfx : f = x
    · subst hfx
      simp
    · rw [beq_false_of_ne hfx]
      rcases List.mem_cons.mp h with h1 | h1
      · exact absurd h1 hfx
      · exact ih h1

theorem lookup_replaceMap_self {d : List (String × String)} {k v : String}
    (hs : (d.lookup k).isSome) :
    (d.map (fun p => if p.1 == k then (k, v) else p)).lookup k = some v := by
  induction d with
  | nil => simp [List.lookup] at hs
  | cons p t ih =>
    rcases p with ⟨a, b⟩
    rw [lookup_cons_ite] at hs
    rw [List.map_cons]
    by_cases hak : a = k
    · rw [if_pos (by simpa using beq_iff_eq.mpr hak)]
      exact List.lookup_cons_self
    · rw [if_neg (by simpa using hak)]
      have hka : (k == a) = false := beq_false_of_ne (fun hh => hak hh.symm)
      rw [hka] at hs
      rw [lookup_cons_ite, hka]
      exact ih hs

theorem lookup_replaceMap_ne {d : List (String × String)} {k v k' : String}
    (h : k' ≠ k) :
    (d.map (fun p => if p.1 == k then (k, v) else p)).lookup k' = d.lookup k' := by
  induction d with
  | nil => rfl
  | cons p t ih =>
    rcases p with ⟨a, b⟩
    rw [List.map_cons]
    by_cases hak : a = k
    · rw [if_pos (by simpa using beq_iff_eq.mpr hak)]
      subst hak
      rw [lookup_cons_ite, lookup_cons_ite, beq_false_of_ne h]
      simpa using ih
    · rw [if_neg (by simpa using hak)]
      rw [lookup_cons_ite, lookup_cons_ite]
      rcases hka : k' == a with _ | _
      · simpa using ih
      · simp

theorem dictInsert_lookup_self (d : List (String × String)) (k v : String) :
    (dictInsert d k v).lookup k = some v := by
  unfold dictInsert
  by_cases hs : (d.lookup k).isSome
  · rw [if_pos hs]
    exact lookup_replaceMap_self hs
  · rw [if_neg hs]
    have hnone : d.lookup k = none := Option.not_isSome_iff_eq_none.mp hs
    rw [lookup_append_of_none _ hnone]
    exact List.lookup_cons_self

theorem dictInsert_lookup_ne (d : List (String × String)) (k v k' : String)
    (h : k' ≠ k) : (dictInsert d k v).lookup k' = d.lookup k' := by
  unfold dictInsert
  by_cases hs : (d.lookup k).isSome
  · rw [if_pos hs]
    exact lookup_replaceMap_ne h
  · rw [if_neg hs]
    by_cases hk : (d.lookup k').isSome
    · obtain ⟨w, hw⟩ := Option.isSome_iff_exists.mp hk
      induction d with
      | nil => simp [List.lookup] at hw
      | cons p t ih =>
        rw [List.cons_append, lookup_cons_ite, lookup_cons_ite]
        rcases hka : k' == p.1 with _ | _
        · rw [lookup_cons_ite, hka] at hw
          rw [lookup_cons_ite, hka] at hk
          refine ih ?_ hk hw
          rw [lookup_cons_ite] at hs
          rcases hkb : k == p.1 with _ | _
          · rw [hkb] at hs
            exact hs
          · rw [hkb] at hs
            simp at hs
        · simp
    · have h1 : d.lookup k' = none := Option.not_isSome_iff_eq_none.mp hk
      rw [lookup_append_of_none _ h1, h1, lookup_cons_ite, beq_false_of_ne h]
      rfl

/- ## Classifier lemmas -/

theorem patMatchAt_mem {cs : List Char} {alt : String} {y : Nat}
    (h : patMatchAt cs = some (alt, y)) : alt ∈ MONTH_ALTS := by
  obtain ⟨a, ha, hfa⟩ := findSome?_exists h
  split at hfa
  · dsimp only at hfa
    split at hfa
    · cases hfa
      exact ha
    · cases hfa
  · cases hfa

theorem patSearch_mem {cs : List Char} {alt : String} {y : Nat}
    (h : patSearch cs = some (alt, y)) : alt ∈ MONTH_ALTS := by
  induction cs with
  | nil => cases h
  | cons c rest ih =>
    rw [patSearch] at h
    cases hm : patMatchAt (c :: rest) with
    | some r =>
      rw [hm] at h
      cases h
      exact patMatchAt_mem hm
    | none =>
      rw [hm] at h
      exact ih h

theorem month_lookup_isSome {alt : String} (h : alt ∈ MONTH_ALTS) :
    (MONTH_TO_NUM.lookup alt).isSome := by
  simp only [MONTH_ALTS, List.mem_cons, List.not_mem_nil, or_false] at h
  rcases h with rfl | rfl | rfl | rfl | rfl | rfl | rfl | rfl | rfl | rfl | rfl |
    rfl | rfl | rfl | rfl | rfl | rfl | rfl | rfl | rfl | rfl | rfl | rfl | rfl <;>
    decide

/-- C8: hospital/professional classification by case-insensitive substring
of the filename stem (hospital checked first), and the invoice month
parsed as `YYYY-MM-01` from the leftmost month-name-plus-year pattern of
the stem, empty when no such pattern occurs; in particular
"Sept 2025 Professional Bills.xlsx" is professional with month
2025-09-01. -/
theorem c8_filename_classification :
    (∀ f : String, strContains (lowerStr (pathStem f)) "hospital" = true →
      get_invoice_type_from_filename f = INVOICE_TYPE_HOSPITAL)
    ∧ (∀ f : String, strContains (lowerStr (pathStem f)) "hospital" = false →
      strContains (lowerStr (pathStem f)) "professional" = true →
      get_invoice_type_from_filename f = INVOICE_TYPE_PROFESSIONAL)
    ∧ (∀ f : String, strContains (lowerStr (pathStem f)) "hospital" = false →
      strContains (lowerStr (pathStem f)) "professional" = false →
      get_invoice_type_from_filename f = INVOICE_TYPE_UNKNOWN)
    ∧ (∀ f : String, patSearch (lowerStr (pathStem f)).data = none →
      get_invoice_date_from_filename f = "")
    ∧ (∀ (f alt : String) (y : Nat),
      patSearch (lowerStr (pathStem f)).data = some (alt, y) →
      ∃ m, MONTH_TO_NUM.lookup alt = some m ∧
        get_invoice_date_from_filename f = fmtInvoiceDate y m)
    ∧ get_invoice_type_from_filename "Sept 2025 Professional Bills.xlsx" =
        INVOICE_TYPE_PROFESSIONAL
    ∧ get_invoice_date_from_filename "Sept 2025 Professional Bills.xlsx" =
        "2025-09-01" := by
  refine ⟨?_, ?_, ?_, ?_, ?_, by decide, by decide⟩
  · intro f h
    have hne : f ≠ "" := by
      rintro rfl
      exact absurd h (by decide)
    simp only [get_invoice_type_from_filename, if_neg hne, h, if_true]
  · intro f h1 h2
    have hne : f ≠ "" := by
      rintro rfl
      exact absurd h2 (by decide)
    simp only [get_invoice_type_from_filename, if_neg hne, h1, h2,
      Bool.false_eq_true, if_false, if_true]
  · intro f h1 h2
    by_cases hne : f = ""
    · simp only [get_invoice_type_from_filename, if_pos hne]
    · simp only [get_invoice_type_from_filename, if_neg hne, h1, h2,
        Bool.false_eq_true, if_false]
  · intro f h
    by_cases hne : f = ""
    · simp only [get_invoice_date_from_filename, if_pos hne]
    · simp only [get_invoice_date_from_filename, if_neg hne, h]
  · intro f alt y h
    have hne : f ≠ "" := by
      rintro rfl
      have h0 : patSearch (lowerStr (pathStem "")).data = none := by decide
      rw [h0] at h
      cases h
    obtain ⟨m, hm⟩ := Option.isSome_iff_exists.mp
      (month_lookup_isSome (patSearch_mem h))
    refine ⟨m, hm, ?_⟩
    simp only [get_invoice_date_from_filename, if_neg hne, h, hm]

/-- Witness for C8 at "Sept 2025 Professional Bills.xlsx". -/
theorem c8_filename_classification_witness :
    strContains (lowerStr (pathStem "Sept 2025 Professional Bills.xlsx")) "hospital" = false
    ∧ strContains (lowerStr (pathStem "Sept 2025 Professional Bills.xlsx")) "professional" = true
    ∧ get_invoice_type_from_filename "Sept 2025 Professional Bills.xlsx" =
        INVOICE_TYPE_PROFESSIONAL :=
  ⟨by decide, by decide,
    c8_filename_classification.2.1 "Sept 2025 Professional Bills.xlsx"
      (by decide) (by decide)⟩

/-- C10: when the stem contains both "hospital" and "professional"
case-insensitively, the hospital check wins. -/
theorem c10_hospital_precedence :
    ∀ f : String, strContains (lowerStr (pathStem f)) "hospital" = true →
      strContains (lowerStr (pathStem f)) "professional" = true →
      get_invoice_type_from_filename f = INVOICE_TYPE_HOSPITAL := by
  intro f h _
  have hne : f ≠ "" := by
    rintro rfl
    exact absurd h (by decide)
  simp only [get_invoice_type_from_filename, if_neg hne, h, if_true]

/-- Witness for C10 at a filename containing both tokens. -/
theorem c10_hospital_precedence_witness :
    strContains (lowerStr (pathStem "Professional and Hospital Mix.xlsx")) "hospital" = true
    ∧ strContains (lowerStr (pathStem "Professional and Hospital Mix.xlsx")) "professional" = true
    ∧ get_invoice_type_from_filename "Professional and Hospital Mix.xlsx" =
        INVOICE_TYPE_HOSPITAL :=
  ⟨by decide, by decide,
    c10_hospital_precedence "Professional and Hospital Mix.xlsx" (by decide) (by decide)⟩

/- ## TableLocator lemmas -/

theorem tryClaimCell_mem {s : String} {c : Nat} {m : ColMap} {e : String × Nat}
    (h : e ∈ tryClaimCell s c m) : e ∈ m ∨ (e.1 ∈ TARGET_COLUMNS ∧ e.2 = c) := by
  unfold tryClaimCell at h
  cases hf : TARGET_COLUMNS.find? (fun t => s == lowerStr t && (m.lookup t).isNone) with
  | none =>
    rw [hf] at h
    exact Or.inl h
  | some t =>
    rw [hf] at h
    rcases List.mem_append.mp h with h1 | h1
    · exact Or.inl h1
    · rw [List.mem_singleton] at h1
      subst h1
      exact Or.inr ⟨List.mem_of_find?_eq_some hf, rfl⟩

theorem tryClaimCell_keys_nodup {s : String} {c : Nat} {m : ColMap}
    (h : (m.map Prod.fst).Nodup) : ((tryClaimCell s c m).map Prod.fst).Nodup := by
  unfold tryClaimCell
  cases hf : TARGET_COLUMNS.find? (fun t => s == lowerStr t && (m.lookup t).isNone) with
  | none => exact h
  | some t =>
    have hp := List.find?_some hf
    have hnone : m.lookup t = none := by
      have h2 := ((Bool.and_eq_true _ _).mp hp).2
      exact Option.isNone_iff_eq_none.mp h2
    have hnotmem : t ∉ m.map Prod.fst := lookup_none_iff.mp hnone
    rw [List.map_append, List.nodup_append]
    refine ⟨h, List.nodup_singleton t, ?_⟩
    intro a ha hb
    rw [show ([(t, c)] : ColMap).map Prod.fst = [t] from rfl, List.mem_singleton] at hb
    subst hb
    exact hnotmem ha

theorem tryClaimCell_snd_cases (s : String) (c : Nat) (m : ColMap) :
    (tryClaimCell s c m).map Prod.snd = m.map Prod.snd
    ∨ (tryClaimCell s c m).map Prod.snd = m.map Prod.snd ++ [c] := by
  unfold tryClaimCell
  cases hf : TARGET_COLUMNS.find? (fun t => s == lowerStr t && (m.lookup t).isNone) with
  | none => exact Or.inl rfl
  | some t =>
    right
    rw [List.map_append]
    rfl

theorem foldBand_mem {g : Grid} {sr c : Nat} :
    ∀ (rs : List Nat) (m : ColMap) (e : String × Nat),
      e ∈ rs.foldl (fun m2 r =>
        if sr + r < nrows g then
          tryClaimCell (normalize_header (cellAt g (sr + r) c)) c m2
        else m2) m →
      e ∈ m ∨ (e.1 ∈ TARGET_COLUMNS ∧ e.2 = c)
  | [], _, _, h => Or.inl h
  | r :: rs, m, e, h => by
    rw [List.foldl_cons] at h
    rcases foldBand_mem rs _ e h with h1 | h1
    · split at h1
      · rcases tryClaimCell_mem h1 with h2 | h2
        · exact Or.inl h2
        · exact Or.inr h2
      · exact Or.inl h1
    · exact Or.inr h1

theorem foldBand_keys_nodup {g : Grid} {sr c : Nat} :
    ∀ (rs : List Nat) (m : ColMap),
      (m.map Prod.fst).Nodup →
      ((rs.foldl (fun m2 r =>
        if sr + r < nrows g then
          tryClaimCell (normalize_header (cellAt g (sr + r) c)) c m2
        else m2) m).map Prod.fst).Nodup
  | [], _, h => h
  | r :: rs, m, h => by
    rw [List.foldl_cons]
    apply foldBand_keys_nodup rs
    split
    · exact tryClaimCell_keys_nodup h
    · exact h

theorem bandClaims_mem {g : Grid} {sr nR c : Nat} {m : ColMap} {e : String × Nat}
    (h : e ∈ bandClaims g sr nR c m) : e ∈ m ∨ (e.1 ∈ TARGET_COLUMNS ∧ e.2 = c) :=
  foldBand_mem (List.range nR) m e h

theorem bandClaims_keys_nodup {g : Grid} {sr nR c : Nat} {m : ColMap}
    (h : (m.map Prod.fst).Nodup) : ((bandClaims g sr nR c m).map Prod.fst).Nodup :=
  foldBand_keys_nodup (List.range nR) m h

theorem bandClaims_one {g : Grid} {sr c : Nat} {m : ColMap} :
    bandClaims g sr 1 c m =
      if sr + 0 < nrows g then
        tryClaimCell (normalize_header (cellAt g (sr + 0) c)) c m
      else m := rfl

theorem buildColMapAux_snd_lt {g : Grid} {sr nR : Nat} :
    ∀ n, ∀ e ∈ buildColMapAux g sr nR n, e.2 < n := by
  intro n
  induction n with
  | zero =>
    intro e he
    simp [buildColMapAux] at he
  | succ n ih =>
    intro e he
    unfold buildColMapAux at he
    rcases bandClaims_mem he with h1 | h1
    · exact Nat.lt_succ_of_lt (ih e h1)
    · rw [h1.2]
      exact Nat.lt_succ_self n

theorem buildColMapAux_keys_nodup {g : Grid} {sr nR : Nat} :
    ∀ n, ((buildColMapAux g sr nR n).map Prod.fst).Nodup := by
  intro n
  induction n with
  | zero => simp [buildColMapAux]
  | succ n ih =>
    unfold buildColMapAux
    exact bandClaims_keys_nodup ih

theorem buildColMapAux_keys_targets {g : Grid} {sr nR : Nat} :
    ∀ n, ∀ e ∈ buildColMapAux g sr nR n, e.1 ∈ TARGET_COLUMNS := by
  intro n
  induction n with
  | zero =>
    intro e he
    simp [buildColMapAux] at he
  | succ n ih =>
    intro e he
    unfold buildColMapAux at he
    rcases bandClaims_mem he with h1 | h1
    · exact ih e h1
    · exact h1.1

theorem buildColMapAux_one_snd_nodup {g : Grid} {sr : Nat} :
    ∀ n, ((buildColMapAux g sr 1 n).map Prod.snd).Nodup := by
  intro n
  induction n with
  | zero => simp [buildColMapAux]
  | succ n ih =>
    unfold buildColMapAux
    rw [bandClaims_one]
    split
    · rcases tryClaimCell_snd_cases (normalize_header (cellAt g (sr + 0) n)) n
        (buildColMapAux g sr 1 n) with h | h
      · rw [h]
        exact ih
      · rw [h, List.nodup_append]
        refine ⟨ih, List.nodup_singleton n, ?_⟩
        intro a ha hb
        rw [List.mem_singleton] at hb
        obtain ⟨e, he, hee⟩ := List.mem_map.mp ha
        have hlt := buildColMapAux_snd_lt _ e he
        omega
    · exact ih

theorem find_header_cases {it : String} {g : Grid} {hs ds : Nat} {cm : ColMap}
    (h : find_header_and_column_map it g = some (hs, ds, cm)) :
    ∃ n ∈ tryOrderOf it, hs ∈ headerCandidates g n ∧ ds = hs + n ∧
      cm = buildColMap g hs n ∧ cm.length = 3 := by
  unfold find_header_and_column_map at h
  obtain ⟨n, hn, hf⟩ := findSome?_exists h
  cases hfind : (headerCandidates g n).find? (fun c => (buildColMap g c n).length == 3) with
  | none =>
    rw [hfind] at hf
    cases hf
  | some c =>
    rw [hfind] at hf
    have heq : (c, c + n, buildColMap g c n) = (hs, ds, cm) := by
      have := hf
      simp only [Option.map_some'] at this
      exact Option.some.inj this
    have hc : c = hs := congrArg Prod.fst heq
    subst hc
    have h2 : (c + n, buildColMap g c n) = (ds, cm) := congrArg Prod.snd heq
    have hd : c + n = ds := congrArg Prod.fst h2
    have hcm : buildColMap g c n = cm := congrArg Prod.snd h2
    have hlen : cm.length = 3 := by
      have h3 := List.find?_some hfind
      rw [hcm] at h3
      simpa using h3
    exact ⟨n, hn, List.mem_of_find?_eq_some hfind, hd.symm, hcm.symm, hlen⟩

theorem headerCandidates_ge {g : Grid} {nR c : Nat} (h : c ∈ headerCandidates g nR) :
    10 ≤ c := by
  unfold headerCandidates at h
  exact of_decide_eq_true (List.mem_filter.mp h).2

/-- C1 (amended): whenever `_find_header_and_column_map` accepts a
candidate start row, each of the three target names is mapped exactly once
(three entries, distinct names, all targets); for a single-row header band
(the hospital category) the three column indices are in addition pairwise
distinct.  For a two-row band two different names may share one column
index and the candidate is still accepted, as the counterexample shows. -/
theorem c1_colmap_structure :
    (∀ (it : String) (g : Grid) (hs ds : Nat) (cm : ColMap),
      find_header_and_column_map it g = some (hs, ds, cm) →
      cm.length = 3 ∧ (cm.map Prod.fst).Nodup ∧ ∀ e ∈ cm, e.1 ∈ TARGET_COLUMNS)
    ∧ (∀ (g : Grid) (hs ds : Nat) (cm : ColMap),
      find_header_and_column_map INVOICE_TYPE_HOSPITAL g = some (hs, ds, cm) →
      (cm.map Prod.snd).Nodup) := by
  constructor
  · intro it g hs ds cm h
    obtain ⟨n, hn, hcand, hds, hcm, hlen⟩ := find_header_cases h
    subst hcm
    exact ⟨hlen, buildColMapAux_keys_nodup _,
      fun e he => buildColMapAux_keys_targets _ e he⟩
  · intro g hs ds cm h
    obtain ⟨n, hn, hcand, hds, hcm, hlen⟩ := find_header_cases h
    have hn1 : n = 1 := by
      have ho : tryOrderOf INVOICE_TYPE_HOSPITAL = [1] := by decide
      rw [ho] at hn
      exact List.mem_singleton.mp hn
    subst hn1
    subst hcm
    exact buildColMapAux_one_snd_nodup _

/-- Counterexample to C1 as stated: a professional sheet whose two-row
band maps "Charge Amount" and "Adjustment" to the same column 0, yet the
candidate start row 10 is accepted. -/
theorem c1_counterexample :
    find_header_and_column_map INVOICE_TYPE_PROFESSIONAL gridC1 =
      some (10, 12, [("Charge Amount", 0), ("Adjustment", 0), ("Balance Due", 1)])
    ∧ ¬ (([("Charge Amount", 0), ("Adjustment", 0), ("Balance Due", 1)] : ColMap).map
        Prod.snd).Nodup := by decide

/-- Witness for C1 at a concrete accepted hospital sheet. -/
theorem c1_colmap_structure_witness :
    find_header_and_column_map INVOICE_TYPE_HOSPITAL gridC1W =
      some (10, 11, [("Charge Amount", 0), ("Adjustment", 1), ("Balance Due", 2)])
    ∧ (([("Charge Amount", 0), ("Adjustment", 1), ("Balance Due", 2)] : ColMap).length = 3
      ∧ (([("Charge Amount", 0), ("Adjustment", 1), ("Balance Due", 2)] : ColMap).map
          Prod.fst).Nodup
      ∧ ∀ e ∈ ([("Charge Amount", 0), ("Adjustment", 1), ("Balance Due", 2)] : ColMap),
          e.1 ∈ TARGET_COLUMNS)
    ∧ (([("Charge Amount", 0), ("Adjustment", 1), ("Balance Due", 2)] : ColMap).map
        Prod.snd).Nodup :=
  ⟨by decide,
    c1_colmap_structure.1 INVOICE_TYPE_HOSPITAL gridC1W 10 11 _ (by decide),
    c1_colmap_structure.2 gridC1W 10 11 _ (by decide)⟩

/- ## RowExtractor: C3 -/

/-- C3: a data row in `[data_start, data_end)` yields a line item exactly
when all three target cells parse as currency; null, blank, or unparseable
cells are unparseable, and the whole row is dropped when any of the three
fails — in particular the row ($1,200.00, blank, $1,200.00) of `gridC3` is
excluded entirely while the fully-parseable row before it is kept. -/
theorem c3_row_all_or_nothing :
    (∀ (it : String) (g : Grid) (hs ds : Nat) (cm : ColMap),
      find_header_and_column_map it g = some (hs, ds, cm) →
      extract_table_data it g =
        (List.range' ds (find_data_end_row g ds - ds)).filterMap (rowItem g cm)
      ∧ ∀ rowIdx ∈ List.range' ds (find_data_end_row g ds - ds),
          ((rowItem g cm rowIdx).isSome ↔
            ∀ cn ∈ TARGET_COLUMNS,
              (parse_currency (targetCellAt g cm rowIdx cn)).isSome))
    ∧ parse_currency Cell.null = none
    ∧ parse_currency (Cell.str "") = none
    ∧ parse_currency (Cell.str "$1,200.00") = some 1200
    ∧ extract_table_data INVOICE_TYPE_HOSPITAL gridC3 =
        [[("Charge Amount", 100), ("Adjustment", 0), ("Balance Due", 100)]] := by
  refine ⟨?_, by decide, by decide, by decide, by decide⟩
  intro it g hs ds cm h
  constructor
  · unfold extract_table_data
    rw [h]
  · intro rowIdx _
    unfold rowItem
    constructor
    · intro hsome cn hcn
      dsimp only at hsome
      split at hsome
      · next hall =>
        have hp := List.all_eq_true.mp hall
          (cn, parse_currency (targetCellAt g cm rowIdx cn)) ?_
        · exact hp
        · unfold parseRowValues
          exact List.mem_map_of_mem _ hcn
      · cases hsome
    · intro hall
      have : (parseRowValues g cm rowIdx).all (fun p => p.2.isSome) = true := by
        rw [List.all_eq_true]
        intro p hp
        unfold parseRowValues at hp
        obtain ⟨cn, hcn, rfl⟩ := List.mem_map.mp hp
        exact hall cn hcn
      rw [if_pos this]
      rfl

/-- Witness for C3 at the concrete hospital sheet `gridC3`. -/
theorem c3_row_all_or_nothing_witness :
    find_header_and_column_map INVOICE_TYPE_HOSPITAL gridC3 =
      some (10, 11, [("Charge Amount", 0), ("Adjustment", 1), ("Balance Due", 2)])
    ∧ extract_table_data INVOICE_TYPE_HOSPITAL gridC3 =
        (List.range' 11 (find_data_end_row gridC3 11 - 11)).filterMap
          (rowItem gridC3 [("Charge Amount", 0), ("Adjustment", 1), ("Balance Due", 2)]) :=
  ⟨by decide,
    (c3_row_all_or_nothing.1 INVOICE_TYPE_HOSPITAL gridC3 10 11
      [("Charge Amount", 0), ("Adjustment", 1), ("Balance Due", 2)] (by decide)).1⟩

/- ## SheetExtractor: C6 -/

theorem find_data_end_le (g : Grid) (ds : Nat) : find_data_end_row g ds ≤ nrows g := by
  unfold find_data_end_row
  cases h : (List.range' ds (nrows g - ds)).find?
      (fun r => rowHasEndMarker (rowCells g r) || rowIsEmptyRow (rowCells g r)) with
  | none => exact Nat.le_refl _
  | some r =>
    have hm := List.mem_of_find?_eq_some h
    rw [List.mem_range'_1] at hm
    show r ≤ nrows g
    omega

theorem extract_table_data_length_le (it : String) (g : Grid) :
    (extract_table_data it g).length ≤ nrows g := by
  unfold extract_table_data
  cases h : find_header_and_column_map it g with
  | none => exact Nat.zero_le _
  | some trip =>
    obtain ⟨hs, ds, cm⟩ := trip
    calc ((List.range' ds (find_data_end_row g ds - ds)).filterMap (rowItem g cm)).length
        ≤ (List.range' ds (find_data_end_row g ds - ds)).length :=
          List.length_filterMap_le _ _
      _ = find_data_end_row g ds - ds := List.length_range' ..
      _ ≤ nrows g := by
          have := find_data_end_le g ds
          omega

/-- C6: the number of extracted line items of a sheet never exceeds the
raw row count of its grid, whether or not a table is located. -/
theorem c6_extracted_le_raw :
    ∀ (ctx : Ctx) (ts : String) (g : Grid),
      (extract_sheet_data ctx ts g).table_data.length ≤
        (extract_sheet_data ctx ts g).raw_row_count := by
  intro ctx ts g
  show ((extract_table_data ctx.invoice_type g).filterMap
    (attachRowExtras ctx (extract_metadata_from_sheet ctx ts g))).length ≤ nrows g
  calc ((extract_table_data ctx.invoice_type g).filterMap
        (attachRowExtras ctx (extract_metadata_from_sheet ctx ts g))).length
      ≤ (extract_table_data ctx.invoice_type g).length := List.length_filterMap_le _ _
    _ ≤ nrows g := extract_table_data_length_le ..

/- ## MetadataScanner: C2 -/

/-- C2 (amended): for a sheet of an unknown-category workbook the Metadata
record carries exactly the five context entries plus the hospital field
set PI, STUDY NAME, IRB NO, KFS NO — the professional-only field
STUDY CODE is accepted as an expected label during scanning but no entry
for it is emitted. -/
theorem c2_unknown_metadata_fields :
    ∀ (ctx : Ctx) (ts : String) (g : Grid),
      ctx.invoice_type = INVOICE_TYPE_UNKNOWN →
      (extract_metadata_from_sheet ctx ts g).map Prod.fst =
        ["sheet_name", "workbook_name", "invoice_type", "invoice_date",
         "extraction_timestamp", "PI", "STUDY NAME", "IRB NO", "KFS NO"] := by
  intro ctx ts g h
  unfold extract_metadata_from_sheet
  rw [List.map_append, h]
  have hbase : (metadataBase ctx ts).map Prod.fst =
      ["sheet_name", "workbook_name", "invoice_type", "invoice_date",
        "extraction_timestamp"] := rfl
  have htail : (metadataTail INVOICE_TYPE_UNKNOWN g).map Prod.fst =
      ["PI", "STUDY NAME", "IRB NO", "KFS NO"] := by
    unfold metadataTail
    cases hf : find_header_and_column_map INVOICE_TYPE_UNKNOWN g with
    | none => rfl
    | some trip =>
      obtain ⟨hs, ds, cm⟩ := trip
      dsimp only
      by_cases h0 : hs = 0
      · rw [if_pos h0]
        rfl
      · rw [if_neg h0]
        rfl
  rw [hbase, htail]
  rfl

/-- Counterexample to C2 as stated: on a sheet of an unknown-category
workbook carrying a "STUDY CODE" label, the produced Metadata record has
no entry at all under "STUDY CODE". -/
theorem c2_counterexample :
    ctxC2.invoice_type = INVOICE_TYPE_UNKNOWN
    ∧ (extract_metadata_from_sheet ctxC2 "2025-06-07T00:00:00" gridC2).lookup
        "STUDY CODE" = none := by decide

/-- Witness for C2 at a concrete unknown-category context. -/
theorem c2_unknown_metadata_fields_witness :
    ctxC2W.invoice_type = INVOICE_TYPE_UNKNOWN
    ∧ (extract_metadata_from_sheet ctxC2W "2025-06-07T00:00:01" []).map Prod.fst =
        ["sheet_name", "workbook_name", "invoice_type", "invoice_date",
         "extraction_timestamp", "PI", "STUDY NAME", "IRB NO", "KFS NO"] :=
  ⟨by decide,
    c2_unknown_metadata_fields ctxC2W "2025-06-07T00:00:01" [] (by decide)⟩

/- ## MetadataScanner: C5 -/

theorem ncols_cons (row : List Cell) (t : Grid) :
    ncols (row :: t) = max row.length (ncols t) := rfl

theorem ncols_row_le : ∀ (g : Grid) (r : Nat), ((g.get? r).getD []).length ≤ ncols g
  | [], r => by simp
  | row :: t, 0 => by
    rw [ncols_cons]
    simp
  | row :: t, r + 1 => by
    have h := ncols_row_le t r
    rw [ncols_cons]
    simp only [List.get?_cons_succ]
    omega

theorem cellAt_ge_ncols (g : Grid) (r : Nat) {c : Nat} (h : ncols g ≤ c) :
    cellAt g r c = Cell.null := by
  unfold cellAt
  have hlen := ncols_row_le g r
  have hnone : ((g.get? r).getD []).get? c = none :=
    List.get?_eq_none.mpr (by omega)
  rw [hnone]
  rfl

theorem canonicalFieldFor_blank (it : String) : canonicalFieldFor it "" = none := by
  unfold canonicalFieldFor expectedMetadataFields
  split
  · decide
  · split
    · decide
    · decide

theorem metaConvention_fields_sub (it : String) :
    ∀ f ∈ (metaConvention it).2.2,
      f ∈ METADATA_FIELDS_HOSPITAL ++ METADATA_FIELDS_PROFESSIONAL := by
  intro f hf
  unfold metaConvention at hf
  split at hf
  · exact List.mem_append_left _ hf
  · split at hf
    · exact List.mem_append_right _ hf
    · exact List.mem_append_left _ hf

theorem metadataBase_lookup_none (ctx : Ctx) (ts : String) {f : String}
    (h : f ∈ METADATA_FIELDS_HOSPITAL ++ METADATA_FIELDS_PROFESSIONAL) :
    (metadataBase ctx ts).lookup f = none := by
  simp only [METADATA_FIELDS_HOSPITAL, METADATA_FIELDS_PROFESSIONAL,
    List.cons_append, List.nil_append, List.mem_cons, List.not_mem_nil,
    or_false] at h
  rcases h with rfl | rfl | rfl | rfl | rfl | rfl | rfl | rfl | rfl <;> rfl

theorem matchRowsFor_succ (it : String) (g : Grid) (lc : Nat) (f : String) (n : Nat) :
    matchRowsFor it g (n + 1) lc f =
      matchRowsFor it g n lc f ++
        (if canonicalFieldFor it (normalize_metadata_label (cellAt g n lc)) =
            some f then [n] else []) := by
  unfold matchRowsFor
  rw [List.range_succ, List.filter_append]
  congr 1
  by_cases hp : canonicalFieldFor it (normalize_metadata_label (cellAt g n lc)) = some f
  · rw [if_pos hp]
    simp [List.filter, hp]
  · rw [if_neg hp]
    have hb : (canonicalFieldFor it (normalize_metadata_label (cellAt g n lc)) ==
        some f) = false := beq_eq_false_iff_ne.mpr hp
    simp [List.filter, hb]

theorem pairsAux_lookup (it : String) (g : Grid) (lc vc : Nat) (f : String) :
    ∀ n : Nat,
      ((List.range n).foldl
        (fun result rowIdx =>
          match canonicalFieldFor it (normalize_metadata_label (cellAt g rowIdx lc)) with
          | none => result
          | some key => dictInsert result key (recordedMetaValue (cellAt g rowIdx vc)))
        []).lookup f
      = ((matchRowsFor it g n lc f).getLast?).map
          (fun r => recordedMetaValue (cellAt g r vc)) := by
  intro n
  induction n with
  | zero => rfl
  | succ n ih =>
    rw [List.range_succ, List.foldl_append, List.foldl_cons, List.foldl_nil,
      matchRowsFor_succ]
    cases hc : canonicalFieldFor it (normalize_metadata_label (cellAt g n lc)) with
    | none =>
      dsimp only
      rw [if_neg (fun hh => Option.noConfusion hh), List.append_nil]
      exact ih
    | some key =>
      dsimp only
      by_cases hkf : key = f
      · subst hkf
        rw [if_pos rfl, List.getLast?_concat]
        exact dictInsert_lookup_self _ _ _
      · rw [if_neg (fun hh => hkf (Option.some.inj hh)), List.append_nil]
        rw [dictInsert_lookup_ne _ _ _ _ (fun hh => hkf hh.symm)]
        exact ih

/-- C5: when at least two rows above a located header band carry labels
normalizing to the same expected (emitted) field, the Metadata record's
value for that field is the value paired with the last matching row,
overwriting all earlier ones. -/
theorem c5_last_match_wins :
    ∀ (ctx : Ctx) (ts : String) (g : Grid) (hs ds : Nat) (cm : ColMap) (f : String),
      find_header_and_column_map ctx.invoice_type g = some (hs, ds, cm) →
      f ∈ (metaConvention ctx.invoice_type).2.2 →
      2 ≤ (matchRowsFor ctx.invoice_type g hs (metaConvention ctx.invoice_type).1 f).length →
      (extract_metadata_from_sheet ctx ts g).lookup f =
        ((matchRowsFor ctx.invoice_type g hs
          (metaConvention ctx.invoice_type).1 f).getLast?).map
          (fun r => recordedMetaValue (cellAt g r (metaConvention ctx.invoice_type).2.1)) := by
  intro ctx ts g hs ds cm f hfind hf hmatch
  have hfHP : f ∈ METADATA_FIELDS_HOSPITAL ++ METADATA_FIELDS_PROFESSIONAL :=
    metaConvention_fields_sub ctx.invoice_type f hf
  have hbase : (metadataBase ctx ts).lookup f = none :=
    metadataBase_lookup_none ctx ts hfHP
  have hs10 : 10 ≤ hs := by
    obtain ⟨n, _, hcand, _⟩ := find_header_cases hfind
    exact headerCandidates_ge hcand
  have hs0 : ¬ hs = 0 := by omega
  -- the last matching row exists
  have hne : matchRowsFor ctx.invoice_type g hs (metaConvention ctx.invoice_type).1 f ≠ [] := by
    intro hnil
    rw [hnil] at hmatch
    simp at hmatch
  obtain ⟨r, hr⟩ : ∃ r,
      (matchRowsFor ctx.invoice_type g hs (metaConvention ctx.invoice_type).1 f).getLast?
        = some r := by
    cases hl : (matchRowsFor ctx.invoice_type g hs
        (metaConvention ctx.invoice_type).1 f).getLast? with
    | none => exact absurd (List.getLast?_eq_none_iff.mp hl) hne
    | some r => exact ⟨r, rfl⟩
  unfold extract_metadata_from_sheet
  rw [lookup_append_of_none _ hbase]
  unfold metadataTail
  rw [hfind]
  dsimp only
  rw [if_neg hs0, lookup_map_self hf]
  unfold extract_metadata_label_value_pairs
  by_cases hguard : (decide (ncols g ≤ (metaConvention ctx.invoice_type).1) ||
      decide (ncols g ≤ (metaConvention ctx.invoice_type).2.1)) = true
  · rw [if_pos hguard]
    -- the scan broke off before recording anything, so the field is blank;
    -- but then the value column lies beyond the grid and the last match's
    -- value cell is null, which also records blank
    have hlc : (metaConvention ctx.invoice_type).1 < ncols g := by
      by_contra hge
      push_neg at hge
      have hnil : matchRowsFor ctx.invoice_type g hs
          (metaConvention ctx.invoice_type).1 f = [] := by
        rw [matchRowsFor, List.filter_eq_nil_iff]
        intro x _
        rw [cellAt_ge_ncols g x hge]
        show ¬(canonicalFieldFor ctx.invoice_type
          (normalize_metadata_label Cell.null) == some f) = true
        rw [show normalize_metadata_label Cell.null = "" from rfl,
          canonicalFieldFor_blank]
        simp
      exact hne hnil
    have hvc : ncols g ≤ (metaConvention ctx.invoice_type).2.1 := by
      by_cases h2 : ncols g ≤ (metaConvention ctx.invoice_type).2.1
      · exact h2
      · rw [decide_eq_false (by omega), decide_eq_false h2] at hguard
        cases hguard
    rw [hr]
    simp only [Option.map_some']
    rw [cellAt_ge_ncols g r hvc]
    rfl
  · rw [if_neg hguard]
    rw [pairsAux_lookup, hr]
    rfl

/-- Witness for C5 at the duplicate-label hospital sheet `gridC5`. -/
theorem c5_last_match_wins_witness :
    find_header_and_column_map ctxC5.invoice_type gridC5 =
      some (10, 11, [("Charge Amount", 0), ("Adjustment", 1), ("Balance Due", 2)])
    ∧ "KFS NO" ∈ (metaConvention ctxC5.invoice_type).2.2
    ∧ 2 ≤ (matchRowsFor ctxC5.invoice_type gridC5 10
        (metaConvention ctxC5.invoice_type).1 "KFS NO").length
    ∧ (extract_metadata_from_sheet ctxC5 "2025-06-07T00:00:02" gridC5).lookup "KFS NO" =
        ((matchRowsFor ctxC5.invoice_type gridC5 10
          (metaConvention ctxC5.invoice_type).1 "KFS NO").getLast?).map
          (fun r => recordedMetaValue (cellAt gridC5 r
            (metaConvention ctxC5.invoice_type).2.1)) :=
  ⟨by decide, by decide, by decide,
    c5_last_match_wins ctxC5 "2025-06-07T00:00:02" gridC5 10 11
      [("Charge Amount", 0), ("Adjustment", 1), ("Balance Due", 2)] "KFS NO"
      (by decide) (by decide) (by decide)⟩

/- ## Summarizer: C4 -/

theorem aggregate_eq_groups {rows : List CRow} {groupCols : List String}
    (hne : rows ≠ [])
    (hcols : ∀ c ∈ groupCols ++ SUM_COLUMNS, c ∈ allColsOf rows) :
    aggregate rows groupCols = aggregateGroups rows groupCols := by
  unfold aggregate
  rw [if_neg (fun h => hne (List.isEmpty_iff.mp h))]
  have hf : ((groupCols ++ SUM_COLUMNS).filter
      (fun c => !(allColsOf rows).contains c)) = [] := by
    rw [List.filter_eq_nil_iff]
    intro c hc
    simpa using hcols c hc
  rw [hf]
  rfl

theorem countP_beq_nodup {α : Type} [BEq α] [LawfulBEq α] {l : List α}
    (h : l.Nodup) (k : α) :
    l.countP (fun x => x == k) = if k ∈ l then 1 else 0 := by
  induction l with
  | nil => simp
  | cons a t ih =>
    rw [List.countP_cons]
    rcases List.nodup_cons.mp h with ⟨ha, ht⟩
    by_cases hk : a = k
    · subst hk
      rw [if_pos (List.mem_cons_self ..), ih ht, if_neg ha]
      simp
    · have hb : (a == k) = false := beq_false_of_ne hk
      rw [hb, ih ht]
      by_cases hkt : k ∈ t
      · rw [if_pos hkt, if_pos (List.mem_cons_of_mem _ hkt)]
        simp
      · have hmem2 : ¬ k ∈ a :: t := fun hh => by
          rcases List.mem_cons.mp hh with h1 | h1
          · exact hk h1.symm
          · exact hkt h1
        rw [if_neg hkt, if_neg hmem2]
        simp

theorem aggregateGroups_key_count (rows : List CRow) (groupCols : List String)
    (k : List String) :
    ((aggregateGroups rows groupCols).filter (fun s => s.1 == k)).length =
      if k ∈ rows.map (groupKeyOf groupCols) then 1 else 0 := by
  unfold aggregateGroups
  rw [List.filter_map, List.length_map, ← List.countP_eq_length_filter]
  by_cases hk : k ∈ rows.map (groupKeyOf groupCols)
  · rw [if_pos hk]
    have h2 := countP_beq_nodup (List.nodup_dedup (rows.map (groupKeyOf groupCols))) k
    rw [if_pos (List.mem_dedup.mpr hk)] at h2
    exact h2
  · rw [if_neg hk]
    have h2 := countP_beq_nodup (List.nodup_dedup (rows.map (groupKeyOf groupCols))) k
    rw [if_neg (fun hh => hk (List.mem_dedup.mp hh))] at h2
    exact h2

theorem aggregateGroups_sums (rows : List CRow) (groupCols : List String) :
    ∀ s ∈ aggregateGroups rows groupCols,
      s.2.1 = sumColOver (rows.filter
        (fun r => groupKeyOf groupCols r == s.1)) "Charge Amount"
      ∧ s.2.2.1 = sumColOver (rows.filter
        (fun r => groupKeyOf groupCols r == s.1)) "Adjustment"
      ∧ s.2.2.2 = sumColOver (rows.filter
        (fun r => groupKeyOf groupCols r == s.1)) "Balance Due" := by
  intro s hs
  unfold aggregateGroups at hs
  obtain ⟨k, hk, rfl⟩ := List.mem_map.mp hs
  exact ⟨rfl, rfl, rfl⟩

/-- C4: the account-level summary groups rows by the coerced
(KFS NO, _invoice_type, invoice_date) key — null or missing key cells
coerce to the empty string, text keys are trimmed — with exactly one
summary row per occurring key carrying the three column sums of its
group; in particular the two line items with KFS No "123", hospital,
2025-05-01 and charges 100/200 aggregate to the single summary row with
Charge Amount 300. -/
theorem c4_account_grouping :
    (∀ (rows : List CRow) (k : List String),
      rows ≠ [] →
      (∀ c ∈ accountGroupCols ++ SUM_COLUMNS, c ∈ allColsOf rows) →
      (((get_account_level_summary rows).filter (fun s => s.1 == k)).length = 1 ↔
          ∃ r ∈ rows, groupKeyOf accountGroupCols r = k)
      ∧ ∀ s ∈ get_account_level_summary rows,
          s.2.1 = sumColOver (rows.filter
            (fun r => groupKeyOf accountGroupCols r == s.1)) "Charge Amount"
          ∧ s.2.2.1 = sumColOver (rows.filter
            (fun r => groupKeyOf accountGroupCols r == s.1)) "Adjustment"
          ∧ s.2.2.2 = sumColOver (rows.filter
            (fun r => groupKeyOf accountGroupCols r == s.1)) "Balance Due")
    ∧ coerceKeyCell (some Cell.null) = ""
    ∧ coerceKeyCell none = ""
    ∧ (∀ s : String, coerceKeyCell (some (Cell.str s)) = trimStr s)
    ∧ get_account_level_summary [c4row1, c4row2] =
        [(["123", "hospital", "2025-05-01"], 300, 30, 270)] := by
  refine ⟨?_, rfl, rfl, fun s => rfl, ?_⟩
  · intro rows k hne hcols
    have hag : get_account_level_summary rows = aggregateGroups rows accountGroupCols :=
      aggregate_eq_groups hne hcols
    refine ⟨?_, ?_⟩
    · rw [hag, aggregateGroups_key_count]
      constructor
      · intro h1
        by_cases hk : k ∈ rows.map (groupKeyOf accountGroupCols)
        · exact List.mem_map.mp hk
        · rw [if_neg hk] at h1
          cases h1
      · rintro ⟨r, hr, hgr⟩
        rw [if_pos (List.mem_map.mpr ⟨r, hr, hgr⟩)]
    · rw [hag]
      exact aggregateGroups_sums rows accountGroupCols
  · have h1 : get_account_level_summary [c4row1, c4row2] =
        [(["123", "hospital", "2025-05-01"],
          sumColOver [c4row1, c4row2] "Charge Amount",
          sumColOver [c4row1, c4row2] "Adjustment",
          sumColOver [c4row1, c4row2] "Balance Due")] := rfl
    have hs1 : sumColOver [c4row1, c4row2] "Charge Amount" = 300 := by
      show List.sum [(100 : ℚ), (200 : ℚ)] = 300
      norm_num [List.sum]
    have hs2 : sumColOver [c4row1, c4row2] "Adjustment" = 30 := by
      show List.sum [(10 : ℚ), (20 : ℚ)] = 30
      norm_num [List.sum]
    have hs3 : sumColOver [c4row1, c4row2] "Balance Due" = 270 := by
      show List.sum [(90 : ℚ), (180 : ℚ)] = 270
      norm_num [List.sum]
    rw [h1, hs1, hs2, hs3]

/-- Witness for C4 at the two concrete line items. -/
theorem c4_account_grouping_witness :
    ([c4row1, c4row2] ≠ [] ∧
      ∀ c ∈ accountGroupCols ++ SUM_COLUMNS, c ∈ allColsOf [c4row1, c4row2])
    ∧ ((get_account_level_summary [c4row1, c4row2]).filter
        (fun s => s.1 == ["123", "hospital", "2025-05-01"])).length = 1 :=
  ⟨⟨by decide, by decide⟩,
    ((c4_account_grouping.1 [c4row1, c4row2] ["123", "hospital", "2025-05-01"]
      (by decide) (by decide)).1).mpr ⟨c4row1, by decide, by decide⟩⟩

/- ## Combiner: C9 -/

theorem extract_table_data_keys (it : String) (g : Grid) :
    ∀ vals ∈ extract_table_data it g, vals.map Prod.fst = TARGET_COLUMNS := by
  intro vals hv
  unfold extract_table_data at hv
  split at hv
  · cases hv
  · obtain ⟨rowIdx, _, hitem⟩ := List.mem_filterMap.mp hv
    unfold rowItem at hitem
    dsimp only at hitem
    split at hitem
    · cases hitem
      rw [List.map_map]
      unfold parseRowValues
      rw [List.map_map]
      rfl
    · cases hitem

theorem extract_sheet_row_keys (ctx : Ctx) (ts : String) (g : Grid) :
    ∀ row ∈ (extract_sheet_data ctx ts g).table_data,
      row.map Prod.fst = COMBINED_ROW_KEYS := by
  intro row hr
  obtain ⟨vals, hv, hatt⟩ := List.mem_filterMap.mp hr
  unfold attachRowExtras at hatt
  dsimp only at hatt
  split at hatt
  · cases hatt
    rw [List.map_append, List.map_append, List.map_map]
    have h1 : vals.map (Prod.fst ∘ fun p : String × ℚ => (p.1, Cell.num p.2)) =
        TARGET_COLUMNS := extract_table_data_keys ctx.invoice_type g vals hv
    rw [h1]
    have h2 : (metaAttach (extract_metadata_from_sheet ctx ts g)).map Prod.fst =
        ["PI", "STUDY NAME", "IRB NO", "KFS NO", "STUDY CODE"] := rfl
    rw [h2]
    rfl
  · cases hatt

theorem foldl_add_combined_rows :
    ∀ (sds : List SheetData) (c : Combiner),
      (sds.foldl add_sheet_data c).combined_rows =
        c.combined_rows ++ (sds.map SheetData.table_data).flatten := by
  intro sds
  induction sds with
  | nil =>
    intro c
    simp
  | cons sd t ih =>
    intro c
    rw [List.foldl_cons, ih]
    simp [add_sheet_data, List.append_assoc]

/-- C9: every row the extractor contributes to the combined table carries
the same fixed key list (targets, unified metadata keys with blanks for
inapplicable fields, invoice date, tracking fields) whatever the invoice
category, so the combiner's column-consistency check never emits its
inconsistency message on extractor-produced rows. -/
theorem c9_uniform_columns :
    ∀ (input : RunInput) (ts : String),
      (∀ row ∈ (runPipeline input ts).combined_rows,
        row.map Prod.fst = COMBINED_ROW_KEYS)
      ∧ missingColsIssue (runPipeline input ts).combined_rows = [] := by
  intro input ts
  have hkeys : ∀ row ∈ (runPipeline input ts).combined_rows,
      row.map Prod.fst = COMBINED_ROW_KEYS := by
    intro row hr
    unfold runPipeline at hr
    rw [foldl_add_combined_rows,
      show emptyCombiner.combined_rows = [] from rfl, List.nil_append] at hr
    obtain ⟨td, htd, hrtd⟩ := List.mem_flatten.mp hr
    obtain ⟨sd, hsd, rfl⟩ := List.mem_map.mp htd
    obtain ⟨j, _, rfl⟩ := List.mem_map.mp hsd
    exact extract_sheet_row_keys j.1 ts j.2 row hrtd
  refine ⟨hkeys, ?_⟩
  have hsub : ∀ x ∈ allColsOf (runPipeline input ts).combined_rows,
      x ∈ COMBINED_ROW_KEYS := by
    intro x hx
    unfold allColsOf at hx
    rw [List.mem_dedup] at hx
    obtain ⟨ks, hks, hxk⟩ := List.mem_flatten.mp hx
    obtain ⟨r, hrmem, rfl⟩ := List.mem_map.mp hks
    rw [hkeys r hrmem] at hxk
    exact hxk
  have hlen : (allColsOf (runPipeline input ts).combined_rows).length ≤ 12 := by
    have hnd : (allColsOf (runPipeline input ts).combined_rows).Nodup :=
      List.nodup_dedup _
    calc (allColsOf (runPipeline input ts).combined_rows).length
        = (allColsOf (runPipeline input ts).combined_rows).dedup.length := by
          rw [List.dedup_eq_self.mpr hnd]
      _ = (allColsOf (runPipeline input ts).combined_rows).toFinset.card :=
          (List.card_toFinset _).symm
      _ ≤ COMBINED_ROW_KEYS.toFinset.card := by
          apply Finset.card_le_card
          intro x hx
          rw [List.mem_toFinset] at hx ⊢
          exact hsub x hx
      _ ≤ COMBINED_ROW_KEYS.length := List.toFinset_card_le _
      _ = 12 := by decide
  have hfil : ((runPipeline input ts).combined_rows.filter
      (fun r => decide ((rowKeySet r).length <
        (allColsOf (runPipeline input ts).combined_rows).length))) = [] := by
    rw [List.filter_eq_nil_iff]
    intro r hrmem
    simp only [decide_eq_true_eq]
    have h1 : rowKeySet r = COMBINED_ROW_KEYS := by
      unfold rowKeySet
      rw [hkeys r hrmem]
      decide
    rw [h1]
    show ¬ (12 < (allColsOf (runPipeline input ts).combined_rows).length)
    omega
  unfold missingColsIssue
  dsimp only
  rw [hfil]
  rfl

/- ## Pipeline determinism: C7 -/

theorem allRowMetaKeys_sub :
    ∀ k ∈ allRowMetaKeys, k ∈ METADATA_FIELDS_HOSPITAL ++ METADATA_FIELDS_PROFESSIONAL := by
  decide

theorem metaAttach_ts (ctx : Ctx) (t1 t2 : String) (g : Grid) :
    metaAttach (extract_metadata_from_sheet ctx t1 g) =
      metaAttach (extract_metadata_from_sheet ctx t2 g) := by
  unfold metaAttach extract_metadata_from_sheet
  apply List.map_congr_left
  intro k hk
  have hkHP : k ∈ METADATA_FIELDS_HOSPITAL ++ METADATA_FIELDS_PROFESSIONAL :=
    allRowMetaKeys_sub k hk
  rw [lookup_append_of_none _ (metadataBase_lookup_none ctx t1 hkHP),
    lookup_append_of_none _ (metadataBase_lookup_none ctx t2 hkHP)]

theorem extract_sheet_table_ts (ctx : Ctx) (t1 t2 : String) (g : Grid) :
    (extract_sheet_data ctx t1 g).table_data =
      (extract_sheet_data ctx t2 g).table_data := by
  show (extract_table_data ctx.invoice_type g).filterMap
      (attachRowExtras ctx (extract_metadata_from_sheet ctx t1 g))
    = (extract_table_data ctx.invoice_type g).filterMap
      (attachRowExtras ctx (extract_metadata_from_sheet ctx t2 g))
  have hf : attachRowExtras ctx (extract_metadata_from_sheet ctx t1 g) =
      attachRowExtras ctx (extract_metadata_from_sheet ctx t2 g) := by
    funext vals
    unfold attachRowExtras
    rw [metaAttach_ts ctx t1 t2 g]
  rw [hf]

theorem scrub_metadata_ts (ctx : Ctx) (t1 t2 : String) (g : Grid) :
    scrubTs (extract_metadata_from_sheet ctx t1 g) =
      scrubTs (extract_metadata_from_sheet ctx t2 g) := by
  unfold extract_metadata_from_sheet scrubTs
  rw [List.filter_append, List.filter_append]
  congr 1

theorem metadata_lookup_workbook (ctx : Ctx) (ts : String) (g : Grid) :
    (extract_metadata_from_sheet ctx ts g).lookup "workbook_name" =
      some ctx.workbook_name := rfl

theorem add_combined (c : Combiner) (sd : SheetData) :
    (add_sheet_data c sd).combined_rows = c.combined_rows ++ sd.table_data := rfl

theorem add_records (c : Combiner) (sd : SheetData) :
    (add_sheet_data c sd).metadata_records =
      c.metadata_records ++ [⟨sd.metadata, sd.raw_row_count, sd.table_data.length⟩] := rfl

theorem add_sources (c : Combiner) (sd : SheetData) :
    (add_sheet_data c sd).source_files =
      if ((sd.metadata.lookup "workbook_name").getD "") ≠ "" ∧
          ((sd.metadata.lookup "workbook_name").getD "") ∉ c.source_files then
        c.source_files ++ [(sd.metadata.lookup "workbook_name").getD ""]
      else c.source_files := rfl

theorem fold_add_ts (t1 t2 : String) :
    ∀ (jobs : List (Ctx × Grid)) (c1 c2 : Combiner),
      c1.combined_rows = c2.combined_rows →
      c1.metadata_records.map scrubRec = c2.metadata_records.map scrubRec →
      c1.source_files = c2.source_files →
      ((jobs.map (fun j => extract_sheet_data j.1 t1 j.2)).foldl
          add_sheet_data c1).combined_rows =
        ((jobs.map (fun j => extract_sheet_data j.1 t2 j.2)).foldl
          add_sheet_data c2).combined_rows
      ∧ ((jobs.map (fun j => extract_sheet_data j.1 t1 j.2)).foldl
          add_sheet_data c1).metadata_records.map scrubRec =
        ((jobs.map (fun j => extract_sheet_data j.1 t2 j.2)).foldl
          add_sheet_data c2).metadata_records.map scrubRec
      ∧ ((jobs.map (fun j => extract_sheet_data j.1 t1 j.2)).foldl
          add_sheet_data c1).source_files =
        ((jobs.map (fun j => extract_sheet_data j.1 t2 j.2)).foldl
          add_sheet_data c2).source_files
  | [], c1, c2, h1, h2, h3 => ⟨h1, h2, h3⟩
  | j :: jobs, c1, c2, h1, h2, h3 => by
    rw [List.map_cons, List.map_cons, List.foldl_cons, List.foldl_cons]
    apply fold_add_ts t1 t2 jobs
    · rw [add_combined, add_combined, h1, extract_sheet_table_ts j.1 t1 t2 j.2]
    · -- the scrubbed record is timestamp-independent: the filter drops the
      -- concrete "extraction_timestamp" entry and the attached rows never
      -- read it (see scrub_metadata_ts and extract_sheet_table_ts)
      rw [add_records, add_records, List.map_append, List.map_append, h2]
      congr 1
    · rw [add_sources, add_sources, h3]
      have hwb1 : ((extract_sheet_data j.1 t1 j.2).metadata.lookup
          "workbook_name").getD "" = j.1.workbook_name := by
        rw [show (extract_sheet_data j.1 t1 j.2).metadata =
          extract_metadata_from_sheet j.1 t1 j.2 from rfl,
          metadata_lookup_workbook]
        rfl
      have hwb2 : ((extract_sheet_data j.1 t2 j.2).metadata.lookup
          "workbook_name").getD "" = j.1.workbook_name := by
        rw [show (extract_sheet_data j.1 t2 j.2).metadata =
          extract_metadata_from_sheet j.1 t2 j.2 from rfl,
          metadata_lookup_workbook]
        rfl
      rw [hwb1, hwb2]

/-- C7: for a fixed run input, the pipeline's combined table, both summary
tables, the per-sheet metadata log modulo the extraction timestamp, and
the source-file list do not depend on the run's timestamp — the timestamp
is the only run-dependent value and it is never copied onto combined
rows. -/
theorem c7_timestamp_determinism :
    ∀ (input : RunInput) (t1 t2 : String),
      (runPipeline input t1).combined_rows = (runPipeline input t2).combined_rows
      ∧ get_study_level_summary (runPipeline input t1).combined_rows =
          get_study_level_summary (runPipeline input t2).combined_rows
      ∧ get_account_level_summary (runPipeline input t1).combined_rows =
          get_account_level_summary (runPipeline input t2).combined_rows
      ∧ (runPipeline input t1).metadata_records.map scrubRec =
          (runPipeline input t2).metadata_records.map scrubRec
      ∧ (runPipeline input t1).source_files = (runPipeline input t2).source_files := by
  intro input t1 t2
  obtain ⟨h1, h2, h3⟩ :=
    fold_add_ts t1 t2 (runJobs input) emptyCombiner emptyCombiner rfl rfl rfl
  exact ⟨h1, congrArg _ h1, congrArg _ h1, h2, h3⟩
